import Mathlib

/-!
Shallow embedding of the `dsync` DynamoDB mutex (package `ddb/sync`).

The embedded source is the DynamoDB-backed `Mutex`: a named lock record
stored in a table, manipulated exclusively through conditional updates
(`UpdateItem` with a `ConditionExpression`).  The store is modelled per
lock name as `Option Record` (the item may be absent); each DynamoDB
attribute is an `Option` field, since condition expressions distinguish
absent attributes (`attribute_not_exists`) and a comparison against an
absent attribute evaluates to false.

Times are nanosecond timestamps (`time.Now().UnixNano()`), modelled as
`Int`; durations (`time.Duration`) are nanosecond counts, also `Int`.
-/

namespace DSync

/-- The persisted lock record: DynamoDB item for one lock name.
`LockerID` is the holder's session id (`0` = unlocked), `LastWrite` the
nanosecond timestamp of the last successful write, `Value` the opaque
string payload. Each attribute may be absent on a never-written item. -/
structure Record where
  lockerID : Option Int
  lastWrite : Option Int
  value : Option String
deriving DecidableEq, Repr

/-- The client-side `Mutex` struct (fields relevant to the protocol;
the AWS/DynamoDB session handles are connection bootstrap, external to
the locking logic). -/
structure Mutex where
  initialized : Bool
  Name : String
  Value : String
  Expiry : Int
  id : Int
  AWSRegion : String
  DDBTableName : String
  timeout : Int
  timeoutSet : Bool
deriving DecidableEq, Repr

/-- The extra disjunct `( #id <> :id AND #lastwrite < :nowminusexpiry )`
appended to the acquire condition when `Expiry > 0`.  In DynamoDB a
comparison whose attribute is absent evaluates to false. -/
def lockCondExtra (r : Record) (id threshold : Int) : Bool :=
  (match r.lockerID with
   | some h => h != id
   | none => false)
  && (match r.lastWrite with
      | some lw => decide (lw < threshold)
      | none => false)

/-- The acquire `ConditionExpression` of `tryLock`:
`attribute_not_exists(#name) OR attribute_not_exists(#id) OR #id = :zero
OR #id = :id`, plus the expiry disjunct when `expiry > 0`.
`attribute_not_exists(#name)` on the key attribute means the item is
absent.  `nowExp` is the `time.Now()` sampled for `:nowminusexpiry`. -/
def lockCondition (rec : Option Record) (id expiry nowExp : Int) : Bool :=
  match rec with
  | none => true
  | some r =>
    r.lockerID.isNone || (r.lockerID == some 0) || (r.lockerID == some id)
      || (decide (0 < expiry) && lockCondExtra r id (nowExp - expiry))

/-- The acquire `UpdateExpression`: `SET #lastwrite=:lastwrite, #id=:id`.
Attributes not mentioned (`Value`) are preserved; an absent item is
created with just the written attributes. -/
def lockUpdate (rec : Option Record) (id nowLW : Int) : Record :=
  { lockerID := some id
    lastWrite := some nowLW
    value := match rec with
             | some r => r.value
             | none => none }

/-- Outcome of one conditional update against the store. -/
inductive TryResult where
  | ok
  | conditionFailed
deriving DecidableEq, Repr

/-- Result of one `tryLock` attempt: the store afterwards, the client
afterwards, and the classified outcome. -/
structure LockAttempt where
  store : Option Record
  client : Mutex
  result : TryResult
deriving DecidableEq, Repr

/-- `tryLock`: one `UpdateItem` call with the acquire condition and
update (`ReturnValues: ALL_NEW`).  On success the client adopts the
returned `Value` attribute when present (`m.Value = *value.S`); on a
failed condition nothing changes. -/
def tryLock (store : Option Record) (m : Mutex) (nowLW nowExp : Int) : LockAttempt :=
  if lockCondition store m.id m.Expiry nowExp then
    let r := lockUpdate store m.id nowLW
    { store := some r
      client := { m with Value := r.value.getD m.Value }
      result := TryResult.ok }
  else
    { store := store, client := m, result := TryResult.conditionFailed }

/-- The release `ConditionExpression` of `tryUnlock`:
`attribute_not_exists(#name) OR #id = :id`. -/
def unlockCondition (rec : Option Record) (id : Int) : Bool :=
  match rec with
  | none => true
  | some r => r.lockerID == some id

/-- The release `UpdateExpression`:
`SET #lastwrite=:lastwrite, #id=:zero, #value=:value` — all three
attributes written, so the new record is fully determined. -/
def unlockUpdate (value : String) (nowLW : Int) : Record :=
  { lockerID := some 0, lastWrite := some nowLW, value := some value }

/-- Result of one `tryUnlock` attempt (the client struct is not
mutated by `tryUnlock`). -/
structure UnlockAttempt where
  store : Option Record
  result : TryResult
deriving DecidableEq, Repr

/-- `tryUnlock`: one `UpdateItem` call with the release condition and
update. -/
def tryUnlock (store : Option Record) (m : Mutex) (now : Int) : UnlockAttempt :=
  if unlockCondition store m.id then
    { store := some (unlockUpdate m.Value now), result := TryResult.ok }
  else
    { store := store, result := TryResult.conditionFailed }

/-- Outcome of `Unlock` as seen by the caller: success, or the
`NotHolder` failure (the Go code panics "could not unlock mutex" on a
failed condition). -/
inductive UnlockOutcome where
  | ok
  | notHolder
deriving DecidableEq, Repr

/-- One `Unlock` run: resulting store, caller-visible outcome, and the
number of conditional updates issued. -/
structure UnlockRun where
  store : Option Record
  outcome : UnlockOutcome
  attempts : Nat
deriving DecidableEq, Repr

/-- `Unlock`: a single `tryUnlock`; a failed condition is surfaced as
`NotHolder` and never retried. -/
def Unlock (store : Option Record) (m : Mutex) (now : Int) : UnlockRun :=
  let a := tryUnlock store m now
  match a.result with
  | TryResult.ok => { store := a.store, outcome := UnlockOutcome.ok, attempts := 1 }
  | TryResult.conditionFailed =>
      { store := a.store, outcome := UnlockOutcome.notHolder, attempts := 1 }

/-- Caller-visible outcome of the `Lock` retry loop.  `outOfTrace`
marks the end of the modelled attempt trace with the loop still
running (the Go loop would keep retrying). -/
inductive LockOutcome where
  | acquired (attempt : Nat)
  | failedToAcquire (attempt : Nat)
  | outOfTrace
deriving DecidableEq, Repr

/-- The `Lock` retry loop over a trace of attempts.  Each trace entry
is the outcome of one `tryLock` together with the `time.Now()` sampled
at the subsequent timeout check.  On `ok` the loop breaks; on a failed
condition the Go code fails (panic "could not lock mutex") when
`started < now - timeout`, and otherwise sleeps a random backoff and
retries.  `k` numbers the attempts. -/
def lockLoop (timeout started : Int) : List (TryResult × Int) → Nat → LockOutcome
  | [], _ => LockOutcome.outOfTrace
  | (res, now) :: rest, k =>
    match res with
    | TryResult.ok => LockOutcome.acquired k
    | TryResult.conditionFailed =>
      if started < now - timeout then LockOutcome.failedToAcquire k
      else lockLoop timeout started rest (k + 1)

/-- The session-id loop of `initialization`:
`for m.id == 0 { m.id = rand.Int63() }`, fed by the modelled stream of
random draws. `none` models running out of modelled draws with the id
still `0` (the Go loop would keep drawing). -/
def resolveId : Int → List Int → Option Int
  | i, [] => if i = 0 then none else some i
  | i, d :: rest => if i = 0 then resolveId d rest else some i

/-- `initialization`: idempotent (immediate return when already
initialized); applies defaults for unset configuration, draws a
nonzero session id, and applies the 5s default timeout when the caller
set none.  Table bootstrap (session creation, CreateTable polling) is
connection plumbing, external to the protocol state. -/
def initialization (m : Mutex) (draws : List Int) : Option Mutex :=
  if m.initialized then some m
  else
    let m1 := { m with
      AWSRegion := if m.AWSRegion = "" then "us-east-1" else m.AWSRegion
      DDBTableName := if m.DDBTableName = "" then "Locks" else m.DDBTableName
      Name := if m.Name = "" then "Lock" else m.Name
      Value := if m.Value = "" then "0" else m.Value }
    match resolveId m1.id draws with
    | none => none
    | some i =>
        some { m1 with
          id := i
          timeout := if m1.timeoutSet then m1.timeout else 5000000000
          initialized := true }

/-- `WithTimeout`: value-receiver builder setting a custom timeout. -/
def WithTimeout (m : Mutex) (t : Int) : Mutex :=
  { m with timeout := t, timeoutSet := true }

/-- `GetTimeout`. -/
def GetTimeout (m : Mutex) : Int :=
  m.timeout

/-- One decimal-digit accumulation step of Go's `strconv.ParseInt`
(base 10): `n = n*10 + (c - '0')`. -/
def digitStep (a : Nat) (c : Char) : Nat :=
  a * 10 + (c.toNat - 48)

/-- Decimal value of a digit string. -/
def digitsToNat (l : List Char) : Nat :=
  l.foldl digitStep 0

/-- The digit-run phase of Go `strconv.ParseInt(s, 10, 64)` after the
sign has been split off (Go's `ParseUint` plus the signed range
check): a nonempty run of ASCII decimal digits whose signed value fits
a 64-bit integer, i.e. lies between `-9223372036854775808` (`-2^63`)
and `9223372036854775807` (`2^63 - 1`). -/
def parseDigits (neg : Bool) (ds : List Char) : Option Int :=
  if ds.isEmpty then none
  else if ds.all Char.isDigit then
    let v : Int := cond neg (-(digitsToNat ds : Int)) (digitsToNat ds : Int)
    if -9223372036854775808 ≤ v ∧ v ≤ 9223372036854775807 then some v else none
  else none

/-- The sign-splitting phase of Go `strconv.ParseInt(s, 10, 64)`: an
optional leading `+`/`-` before the digit run; empty input is a
syntax error. -/
def parseInt64Chars : List Char → Option Int
  | [] => none
  | c :: rest =>
    if c = '-' then parseDigits true rest
    else if c = '+' then parseDigits false rest
    else parseDigits false (c :: rest)

/-- Embedding of Go `strconv.ParseInt(s, 10, 64)`: `some v` exactly
when `err == nil`; `none` is a syntax or range error. -/
def parseInt64 (s : String) : Option Int :=
  parseInt64Chars s.toList

/-- Decimal digit characters of a natural number, most significant
first (the digit-emission of Go `strconv.FormatInt` for base 10). -/
def natDigits (n : Nat) : List Char :=
  if n < 10 then [Nat.digitChar n]
  else natDigits (n / 10) ++ [Nat.digitChar (n % 10)]
termination_by n
decreasing_by exact Nat.div_lt_self (by omega) (by omega)

/-- Embedding of Go `strconv.FormatInt(v, 10)`: decimal digits of the
magnitude, preceded by `-` for negative input. -/
def formatInt (v : Int) : String :=
  if v < 0 then String.mk ('-' :: natDigits v.natAbs)
  else String.mk (natDigits v.toNat)

/-- Result of `GetValueInt64` as seen by the caller: the decoded value
or the `InvalidValue` failure (the Go code panics on a parse error). -/
inductive GetIntResult where
  | ok (v : Int)
  | invalidValue
deriving DecidableEq, Repr

/-- `GetValueInt64`: empty cached value decodes to `0`; otherwise the
value is parsed as a base-10 signed 64-bit integer, failing with
`InvalidValue` when the parse errors. -/
def GetValueInt64 (m : Mutex) : GetIntResult :=
  if m.Value = "" then GetIntResult.ok 0
  else
    match parseInt64 m.Value with
    | some v => GetIntResult.ok v
    | none => GetIntResult.invalidValue

/-- `SetValueInt64`: stores the decimal rendering in the cached value. -/
def SetValueInt64 (m : Mutex) (v : Int) : Mutex :=
  { m with Value := formatInt v }

/-- `GetValueString`. -/
def GetValueString (m : Mutex) : String :=
  m.Value

/-- `SetValueString`. -/
def SetValueString (m : Mutex) (s : String) : Mutex :=
  { m with Value := s }

/-- The client-side operations that may follow initialization, as they
act on the `Mutex` struct: repeated initialization, the builder,
acquisition and release attempts (with an arbitrary store state and
times), and the value accessors. -/
inductive ClientOp where
  | reinit (draws : List Int)
  | builderTimeout (t : Int)
  | lockAttempt (store : Option Record) (nowLW nowExp : Int)
  | unlockAttempt (store : Option Record) (now : Int)
  | setInt (v : Int)
  | setStr (s : String)

/-- Effect of one operation on the client struct.  `tryUnlock` reads
but never writes the client's fields, so `unlockAttempt` leaves the
struct unchanged; getters are omitted since they write nothing. -/
def applyClientOp (m : Mutex) : ClientOp → Mutex
  | ClientOp.reinit draws => (initialization m draws).getD m
  | ClientOp.builderTimeout t => WithTimeout m t
  | ClientOp.lockAttempt store nowLW nowExp => (tryLock store m nowLW nowExp).client
  | ClientOp.unlockAttempt _ _ => m
  | ClientOp.setInt v => SetValueInt64 m v
  | ClientOp.setStr s => SetValueString m s

/-- Sequential composition of client operations. -/
def applyClientOps (m : Mutex) (ops : List ClientOp) : Mutex :=
  ops.foldl applyClientOp m

/- Multi-client system over one lock name: the shared record plus each
client's held/not-held status (the spec's `HeldBySelf`/`Unlocked`
states, entered on a successful acquire/release conditional write). -/

/-- Global state: the stored record for the contended name, and for
each client index whether that client currently reports holding. -/
structure SysState (ι : Type) where
  store : Option Record
  holding : ι → Bool

/-- Effect of one `Lock()` acquisition attempt by client `i`: on a
successful conditional write the record is rewritten by the acquire
update and the client reports holding; on a failed condition nothing
changes (the client sleeps and will retry). -/
def applyLockStep {ι : Type} [DecidableEq ι] (ids : ι → Int) (expiry : Int)
    (s : SysState ι) (i : ι) (nowLW nowExp : Int) : SysState ι :=
  if lockCondition s.store (ids i) expiry nowExp then
    { store := some (lockUpdate s.store (ids i) nowLW)
      holding := fun j => if j = i then true else s.holding j }
  else s

/-- Effect of one `Unlock()` by client `i` writing payload `v`: on a
successful conditional write the record is released and the client
stops reporting holding; a failed condition changes nothing (the Go
code panics). -/
def applyUnlockStep {ι : Type} [DecidableEq ι] (ids : ι → Int)
    (s : SysState ι) (i : ι) (now : Int) (v : String) : SysState ι :=
  if unlockCondition s.store (ids i) then
    { store := some (unlockUpdate v now)
      holding := fun j => if j = i then false else s.holding j }
  else s

/-- One atomic conditional write by some client at some time: the
store's per-key linearization point. -/
inductive SysStep {ι : Type} [DecidableEq ι] (ids : ι → Int) (expiry : Int) :
    SysState ι → SysState ι → Prop where
  | lock : ∀ (s : SysState ι) (i : ι) (nowLW nowExp : Int),
      SysStep ids expiry s (applyLockStep ids expiry s i nowLW nowExp)
  | unlock : ∀ (s : SysState ι) (i : ι) (now : Int) (v : String),
      SysStep ids expiry s (applyUnlockStep ids s i now v)

/-- States reachable from `init` by interleaved conditional writes. -/
inductive SysReach {ι : Type} [DecidableEq ι] (ids : ι → Int) (expiry : Int)
    (init : SysState ι) : SysState ι → Prop where
  | refl : SysReach ids expiry init init
  | tail : ∀ {t u : SysState ι},
      SysReach ids expiry init t → SysStep ids expiry t u → SysReach ids expiry init u

/-- Initial state: clients start out not holding; the pre-existing
record is arbitrary. -/
def initState {ι : Type} (store0 : Option Record) : SysState ι :=
  { store := store0, holding := fun _ => false }

/-- Protocol invariant: a client reports holding only while the stored
record carries its session id. -/
def HoldInv {ι : Type} (ids : ι → Int) (s : SysState ι) : Prop :=
  ∀ i, s.holding i = true → ∃ r, s.store = some r ∧ r.lockerID = some (ids i)

/- Concrete states used to instantiate the theorems. -/

/-- A client as it comes out of a first `initialization` of a
zero-configured `Mutex`, with session id `7`. -/
def freshSession : Mutex :=
  { initialized := true, Name := "Lock", Value := "0", Expiry := 0, id := 7,
    AWSRegion := "us-east-1", DDBTableName := "Locks",
    timeout := 5000000000, timeoutSet := false }

/-- A zero-configured client before its first `initialization`. -/
def uninitClient : Mutex :=
  { initialized := false, Name := "", Value := "", Expiry := 0, id := 0,
    AWSRegion := "", DDBTableName := "", timeout := 0, timeoutSet := false }

/-- A record currently held by session `5`. -/
def heldRecord : Record :=
  { lockerID := some 5, lastWrite := some 0, value := some "0" }

/-- A client whose cached value is the empty string. -/
def emptyValueClient : Mutex :=
  { freshSession with Value := "" }

/-- A client whose cached value is the decimal literal `42`. -/
def fortyTwoClient : Mutex :=
  { freshSession with Value := "42" }

/- Decimal digit-string lemmas supporting the value round-trip. -/

theorem digitChar_toNat {n : Nat} (h : n < 10) : (Nat.digitChar n).toNat = 48 + n := by
  interval_cases n <;> rfl

theorem digitChar_isDigit {n : Nat} (h : n < 10) : (Nat.digitChar n).isDigit = true := by
  interval_cases n <;> rfl

theorem natDigits_ne_nil (n : Nat) : natDigits n ≠ [] := by
  rw [natDigits]
  split
  · simp
  · simp

theorem natDigits_all_isDigit (n : Nat) : (natDigits n).all Char.isDigit = true := by
  induction n using Nat.strong_induction_on with
  | _ n ih =>
    rw [natDigits]
    split
    · next h => simp [digitChar_isDigit h]
    · next h =>
      rw [List.all_append]
      have h1 := ih (n / 10) (Nat.div_lt_self (by omega) (by omega))
      simp [h1, digitChar_isDigit (Nat.mod_lt _ (by omega))]

theorem foldl_natDigits (n : Nat) :
    ∀ a : Nat, (natDigits n).foldl digitStep a = a * 10 ^ (natDigits n).length + n := by
  induction n using Nat.strong_induction_on with
  | _ n ih =>
    intro a
    rw [natDigits]
    split
    · next h =>
      simp [digitStep, digitChar_toNat h]
    · next h =>
      rw [List.foldl_append, List.length_append]
      have hlt : n / 10 < n := Nat.div_lt_self (by omega) (by omega)
      rw [ih (n / 10) hlt a]
      simp only [List.foldl, List.length_cons, List.length_nil]
      rw [digitStep, digitChar_toNat (Nat.mod_lt _ (by omega))]
      have hdm : n / 10 * 10 + n % 10 = n := by omega
      calc (a * 10 ^ (natDigits (n / 10)).length + n / 10) * 10 + (48 + n % 10 - 48)
          = a * (10 ^ (natDigits (n / 10)).length * 10) + (n / 10 * 10 + n % 10) := by
            rw [Nat.add_sub_cancel_left]; ring
        _ = a * 10 ^ ((natDigits (n / 10)).length + (0 + 1)) + n := by
            rw [hdm, pow_succ]

theorem digitsToNat_natDigits (n : Nat) : digitsToNat (natDigits n) = n := by
  have h := foldl_natDigits n 0
  simpa [digitsToNat] using h

theorem toList_mk (l : List Char) : (String.mk l).toList = l := rfl

theorem isDigit_ne_minus {c : Char} (h : c.isDigit = true) : ¬(c = '-') := by
  intro hc
  subst hc
  exact absurd h (by decide)

theorem isDigit_ne_plus {c : Char} (h : c.isDigit = true) : ¬(c = '+') := by
  intro hc
  subst hc
  exact absurd h (by decide)

theorem parseDigits_true {ds : List Char} (hne : ds ≠ [])
    (hall : ds.all Char.isDigit = true)
    (hlo : -9223372036854775808 ≤ -(digitsToNat ds : Int)) :
    parseDigits true ds = some (-(digitsToNat ds : Int)) := by
  unfold parseDigits
  rw [if_neg (by simpa [List.isEmpty_iff] using hne), if_pos hall]
  simp only [cond_true]
  rw [if_pos ⟨hlo, by omega⟩]

theorem parseDigits_false {ds : List Char} (hne : ds ≠ [])
    (hall : ds.all Char.isDigit = true)
    (hhi : (digitsToNat ds : Int) ≤ 9223372036854775807) :
    parseDigits false ds = some (digitsToNat ds : Int) := by
  unfold parseDigits
  rw [if_neg (by simpa [List.isEmpty_iff] using hne), if_pos hall]
  simp only [cond_false]
  rw [if_pos ⟨by omega, hhi⟩]

theorem parseInt64_formatInt {v : Int}
    (h1 : -9223372036854775808 ≤ v) (h2 : v ≤ 9223372036854775807) :
    parseInt64 (formatInt v) = some v := by
  unfold formatInt parseInt64
  by_cases hv : v < 0
  · rw [if_pos hv, toList_mk]
    have habs : (v.natAbs : Int) = -v := by omega
    rw [parseInt64Chars, if_pos rfl]
    have hpd := parseDigits_true (natDigits_ne_nil v.natAbs) (natDigits_all_isDigit v.natAbs)
      (by rw [digitsToNat_natDigits, habs]; omega)
    rw [hpd, digitsToNat_natDigits, habs]
    congr 1
    omega
  · rw [if_neg hv, toList_mk]
    have h0 : 0 ≤ v := by omega
    have hnn : (v.toNat : Int) = v := Int.toNat_of_nonneg h0
    obtain ⟨c, rest, hcr⟩ : ∃ c rest, natDigits v.toNat = c :: rest := by
      cases h : natDigits v.toNat with
      | nil => exact absurd h (natDigits_ne_nil _)
      | cons c rest => exact ⟨c, rest, rfl⟩
    rw [hcr, parseInt64Chars]
    have hall : (c :: rest).all Char.isDigit = true := by
      rw [← hcr]; exact natDigits_all_isDigit _
    have hc : c.isDigit = true := by
      simp only [List.all_cons, Bool.and_eq_true] at hall
      exact hall.1
    rw [if_neg (isDigit_ne_minus hc), if_neg (isDigit_ne_plus hc)]
    have hpd := parseDigits_false (List.cons_ne_nil c rest) hall
      (by rw [← hcr, digitsToNat_natDigits, hnn]; omega)
    rw [hpd, ← hcr, digitsToNat_natDigits, hnn]

/- Characterizations of the two conditional-write conditions. -/

theorem lockCondExtra_iff (r : Record) (id threshold : Int) :
    lockCondExtra r id threshold = true ↔
      ((∃ h, r.lockerID = some h ∧ h ≠ id) ∧
       (∃ lw, r.lastWrite = some lw ∧ lw < threshold)) := by
  unfold lockCondExtra
  cases hL : r.lockerID with
  | none => simp
  | some hv =>
    cases hW : r.lastWrite with
    | none => simp
    | some lw => simp [bne_iff_ne]

theorem lockCondition_iff (rec : Option Record) (id expiry nowExp : Int) :
    lockCondition rec id expiry nowExp = true ↔
      (rec = none ∨ ∃ r, rec = some r ∧
        (r.lockerID = none ∨ r.lockerID = some 0 ∨ r.lockerID = some id
         ∨ (0 < expiry ∧ (∃ h, r.lockerID = some h ∧ h ≠ id)
            ∧ (∃ lw, r.lastWrite = some lw ∧ lw < nowExp - expiry)))) := by
  cases rec with
  | none => simp [lockCondition]
  | some r =>
    simp only [lockCondition, lockCondExtra_iff, Bool.or_eq_true, beq_iff_eq,
      Option.isNone_iff_eq_none, Bool.and_eq_true, decide_eq_true_eq, and_assoc,
      Option.some.injEq, exists_eq_left', false_or, reduceCtorEq]
    tauto

theorem unlockCondition_iff (rec : Option Record) (id : Int) :
    unlockCondition rec id = true ↔
      (rec = none ∨ ∃ r, rec = some r ∧ r.lockerID = some id) := by
  cases rec with
  | none => simp [unlockCondition]
  | some r => simp [unlockCondition]

/- The Lock retry loop only fails at or after the attempt index it was
entered with. -/

theorem lockLoop_attempt_ge (timeout started : Int) :
    ∀ (l : List (TryResult × Int)) (k j : Nat),
      lockLoop timeout started l k = LockOutcome.failedToAcquire j → k ≤ j := by
  intro l
  induction l with
  | nil =>
    intro k j h
    simp [lockLoop] at h
  | cons p rest ih =>
    intro k j h
    obtain ⟨res, now⟩ := p
    cases res with
    | ok => simp [lockLoop] at h
    | conditionFailed =>
      rw [lockLoop] at h
      by_cases hc : started < now - timeout
      · rw [if_pos hc] at h
        cases h
        omega
      · rw [if_neg hc] at h
        have := ih (k + 1) j h
        omega

/- Session-id generation never settles on zero, and no client
operation rewrites an assigned id. -/

theorem resolveId_ne_zero :
    ∀ (ds : List Int) (i j : Int), resolveId i ds = some j → j ≠ 0 := by
  intro ds
  induction ds with
  | nil =>
    intro i j h
    by_cases hi : i = 0
    · simp [resolveId, hi] at h
    · simp [resolveId, hi] at h
      omega
  | cons d rest ih =>
    intro i j h
    by_cases hi : i = 0
    · rw [resolveId, if_pos hi] at h
      exact ih d j h
    · rw [resolveId, if_neg hi] at h
      cases h
      exact hi

theorem initialization_ready {m m' : Mutex} {draws : List Int}
    (h0 : m.initialized = false) (h : initialization m draws = some m') :
    m'.id ≠ 0 ∧ m'.initialized = true := by
  unfold initialization at h
  rw [h0] at h
  simp only [Bool.false_eq_true, if_false] at h
  cases hr : resolveId m.id draws with
  | none => rw [hr] at h; cases h
  | some i =>
    rw [hr] at h
    cases h
    exact ⟨resolveId_ne_zero draws m.id i hr, rfl⟩

theorem applyClientOp_id {m : Mutex} (h : m.initialized = true) (op : ClientOp) :
    (applyClientOp m op).id = m.id ∧ (applyClientOp m op).initialized = true := by
  cases op with
  | reinit draws =>
    simp only [applyClientOp]
    unfold initialization
    rw [if_pos h]
    exact ⟨rfl, h⟩
  | builderTimeout t => exact ⟨rfl, h⟩
  | lockAttempt store a b =>
    simp only [applyClientOp]
    unfold tryLock
    split
    · exact ⟨rfl, h⟩
    · exact ⟨rfl, h⟩
  | unlockAttempt _ _ => exact ⟨rfl, h⟩
  | setInt v => exact ⟨rfl, h⟩
  | setStr s => exact ⟨rfl, h⟩

theorem applyClientOps_id {m : Mutex} (h : m.initialized = true) (ops : List ClientOp) :
    (applyClientOps m ops).id = m.id := by
  induction ops generalizing m with
  | nil => rfl
  | cons op rest ih =>
    have h1 := applyClientOp_id h op
    have h2 : applyClientOps m (op :: rest) = applyClientOps (applyClientOp m op) rest := rfl
    rw [h2, ih h1.2, h1.1]

theorem holdInv_step {ι : Type} [DecidableEq ι] (ids : ι → Int)
    (hne : ∀ i, ids i ≠ 0) (hinj : ∀ i j : ι, i ≠ j → ids i ≠ ids j)
    {s t : SysState ι} (hstep : SysStep ids 0 s t) (hinv : HoldInv ids s) :
    HoldInv ids t := by
  cases hstep with
  | lock i nowLW nowExp =>
    unfold applyLockStep
    by_cases hc : lockCondition s.store (ids i) 0 nowExp = true
    · rw [if_pos hc]
      intro j hj
      simp only at hj
      by_cases hji : j = i
      · subst hji
        exact ⟨lockUpdate s.store (ids j) nowLW, rfl, rfl⟩
      · rw [if_neg hji] at hj
        obtain ⟨r, hr, hid⟩ := hinv j hj
        rw [hr] at hc
        simp [lockCondition, lockCondExtra, hid] at hc
        cases hc with
        | inl h0 => exact absurd h0 (hne j)
        | inr hsame => exact absurd hsame (hinj j i hji)
    · rw [if_neg hc]
      exact hinv
  | unlock i now v =>
    unfold applyUnlockStep
    by_cases hc : unlockCondition s.store (ids i) = true
    · rw [if_pos hc]
      intro j hj
      simp only at hj
      by_cases hji : j = i
      · rw [if_pos hji] at hj
        cases hj
      · rw [if_neg hji] at hj
        obtain ⟨r, hr, hid⟩ := hinv j hj
        rw [hr] at hc
        simp [unlockCondition, hid] at hc
        exact absurd hc (hinj j i hji)
    · rw [if_neg hc]
      exact hinv

theorem holdInv_reach {ι : Type} [DecidableEq ι] (ids : ι → Int) (store0 : Option Record)
    (hne : ∀ i, ids i ≠ 0) (hinj : ∀ i j : ι, i ≠ j → ids i ≠ ids j)
    {s : SysState ι} (hreach : SysReach ids 0 (initState store0) s) :
    HoldInv ids s := by
  induction hreach with
  | refl =>
    intro i hi
    simp [initState] at hi
  | tail hr hstep ih => exact holdInv_step ids hne hinj hstep ih

theorem formatInt_ne_empty (v : Int) : formatInt v ≠ "" := by
  unfold formatInt
  split
  · intro hcon
    have h3 : ('-' :: natDigits v.natAbs) = ([] : List Char) := congrArg String.data hcon
    exact List.noConfusion h3
  · intro hcon
    have h3 : natDigits v.toNat = ([] : List Char) := congrArg String.data hcon
    exact natDigits_ne_nil _ h3

/- The claims. -/

/-- C1: with `Expiry = 0`, two clients with distinct nonzero session
ids never report holding the same lock simultaneously, in any state
reachable by interleaved conditional writes from a state where nobody
holds: every acquisition is a single atomic conditional write whose
condition is false while a different nonzero holder id is stored. -/
theorem lock_mutual_exclusion {ι : Type} [DecidableEq ι] (ids : ι → Int)
    (store0 : Option Record) (s : SysState ι)
    (hne : ∀ i, ids i ≠ 0) (hinj : ∀ i j : ι, i ≠ j → ids i ≠ ids j)
    (hreach : SysReach ids 0 (initState store0) s)
    (i j : ι) (hij : i ≠ j) :
    ¬(s.holding i = true ∧ s.holding j = true) := by
  have hinv := holdInv_reach ids store0 hne hinj hreach
  rintro ⟨hi, hj⟩
  obtain ⟨r1, hr1, hid1⟩ := hinv i hi
  obtain ⟨r2, hr2, hid2⟩ := hinv j hj
  rw [hr1] at hr2
  have h12 : r1 = r2 := Option.some.inj hr2
  subst h12
  rw [hid1] at hid2
  exact hinj i j hij (Option.some.inj hid2)

theorem lock_mutual_exclusion_witness :
    ¬((applyLockStep (fun b : Bool => cond b 1 2) 0 (@initState Bool none) true 3 3).holding true = true
      ∧ (applyLockStep (fun b : Bool => cond b 1 2) 0 (@initState Bool none) true 3 3).holding false = true) :=
  lock_mutual_exclusion (fun b : Bool => cond b 1 2) none
    (applyLockStep (fun b : Bool => cond b 1 2) 0 (@initState Bool none) true 3 3)
    (by decide) (by decide)
    (SysReach.tail SysReach.refl (SysStep.lock (@initState Bool none) true 3 3))
    true false (by decide)

/-- C2: every acquisition attempt is one conditional update whose
condition holds exactly when the record is absent, or the holder
attribute is absent, zero, or the caller's session id, or — only with
a positive expiry — a different session's last write is older than
`now - Expiry`; its update writes the session id and the write time,
and a failed condition leaves the store untouched. -/
theorem tryLock_single_conditional_write (store : Option Record) (m : Mutex) (nowLW nowExp : Int) :
    ((tryLock store m nowLW nowExp).result = TryResult.ok ↔
      (store = none ∨ ∃ r, store = some r ∧
        (r.lockerID = none ∨ r.lockerID = some 0 ∨ r.lockerID = some m.id
         ∨ (0 < m.Expiry ∧ (∃ h, r.lockerID = some h ∧ h ≠ m.id)
            ∧ (∃ lw, r.lastWrite = some lw ∧ lw < nowExp - m.Expiry)))))
    ∧ ((tryLock store m nowLW nowExp).result = TryResult.ok →
        ∃ r1, (tryLock store m nowLW nowExp).store = some r1
            ∧ r1.lockerID = some m.id ∧ r1.lastWrite = some nowLW)
    ∧ ((tryLock store m nowLW nowExp).result = TryResult.conditionFailed →
        (tryLock store m nowLW nowExp).store = store) := by
  by_cases hc : lockCondition store m.id m.Expiry nowExp = true
  · unfold tryLock
    rw [if_pos hc]
    exact ⟨iff_of_true rfl ((lockCondition_iff store m.id m.Expiry nowExp).mp hc),
           fun _ => ⟨lockUpdate store m.id nowLW, rfl, rfl, rfl⟩,
           fun hx => TryResult.noConfusion hx⟩
  · unfold tryLock
    rw [if_neg hc]
    exact ⟨iff_of_false (fun hx => TryResult.noConfusion hx)
             (fun hcl => hc ((lockCondition_iff store m.id m.Expiry nowExp).mpr hcl)),
           fun hx => TryResult.noConfusion hx,
           fun _ => rfl⟩

theorem tryLock_single_conditional_write_witness :
    (tryLock none freshSession 4 4).result = TryResult.ok :=
  (tryLock_single_conditional_write none freshSession 4 4).1.mpr (Or.inl rfl)

/-- C3 counterexample: at the boundary `now - startTime = Timeout`
(here both `5`, with `Timeout > 0`), an attempt returning a failed
condition does not fail the loop — the claim's `≥` bound would
require `FailedToAcquire` at attempt `0`, but the loop retries and
acquires at attempt `1`. -/
theorem lockLoop_timeout_boundary_cex :
    lockLoop 5 0 [(TryResult.conditionFailed, 5), (TryResult.ok, 6)] 0 = LockOutcome.acquired 1
    ∧ (5 : Int) - 0 ≥ 5 ∧ (0 : Int) < 5
    ∧ LockOutcome.acquired 1 ≠ LockOutcome.failedToAcquire 0 := by
  decide

/-- C3 (amended): with `Timeout > 0`, an attempt returning a failed
condition makes the loop fail with `FailedToAcquire` exactly when
`now - startTime > Timeout` (strictly) at that attempt; otherwise the
failure is fully absorbed and the loop continues with the next
attempt, never surfacing the failed condition. -/
theorem lockLoop_timeout_strict (timeout started now : Int)
    (rest : List (TryResult × Int)) (k : Nat) (ht : 0 < timeout) :
    (lockLoop timeout started ((TryResult.conditionFailed, now) :: rest) k
        = LockOutcome.failedToAcquire k ↔ timeout < now - started)
    ∧ (now - started ≤ timeout →
        lockLoop timeout started ((TryResult.conditionFailed, now) :: rest) k
          = lockLoop timeout started rest (k + 1)) := by
  constructor
  · rw [lockLoop]
    by_cases hc : started < now - timeout
    · rw [if_pos hc]
      exact iff_of_true rfl (by omega)
    · rw [if_neg hc]
      constructor
      · intro h
        have := lockLoop_attempt_ge timeout started rest (k + 1) k h
        omega
      · intro h
        exact absurd h (by omega)
  · intro hle
    rw [lockLoop, if_neg (by omega)]

theorem lockLoop_timeout_strict_witness :
    (0 : Int) < 5 ∧
    lockLoop 5 0 [(TryResult.conditionFailed, 6)] 0 = LockOutcome.failedToAcquire 0 :=
  ⟨by decide, (lockLoop_timeout_strict 5 0 6 [] 0 (by decide)).1.mpr (by decide)⟩

/-- C4: with `Timeout = 0` the bound is NOT disabled, contrary to the
claim and to `WithTimeout`'s own documentation ("Set it to 0 for no
timeout"): the very first contended attempt, one nanosecond after the
start, already fails with `FailedToAcquire` instead of retrying. -/
theorem lockLoop_zero_timeout_fails :
    lockLoop 0 0 [(TryResult.conditionFailed, 1)] 0 = LockOutcome.failedToAcquire 0
    ∧ GetTimeout (WithTimeout freshSession 0) = 0 := by
  decide

/-- C5: every release is one conditional update whose condition holds
exactly when the record is absent or its holder id equals the caller's
session id; its update writes holder id `0`, the write time, and the
cached value; a failed condition leaves the store untouched. -/
theorem tryUnlock_single_conditional_write (store : Option Record) (m : Mutex) (now : Int) :
    ((tryUnlock store m now).result = TryResult.ok ↔
      (store = none ∨ ∃ r, store = some r ∧ r.lockerID = some m.id))
    ∧ ((tryUnlock store m now).result = TryResult.ok →
        (tryUnlock store m now).store
          = some { lockerID := some 0, lastWrite := some now, value := some m.Value })
    ∧ ((tryUnlock store m now).result = TryResult.conditionFailed →
        (tryUnlock store m now).store = store) := by
  by_cases hc : unlockCondition store m.id = true
  · unfold tryUnlock
    rw [if_pos hc]
    exact ⟨iff_of_true rfl ((unlockCondition_iff store m.id).mp hc),
           fun _ => rfl, fun hx => TryResult.noConfusion hx⟩
  · unfold tryUnlock
    rw [if_neg hc]
    exact ⟨iff_of_false (fun hx => TryResult.noConfusion hx)
             (fun hcl => hc ((unlockCondition_iff store m.id).mpr hcl)),
           fun hx => TryResult.noConfusion hx, fun _ => rfl⟩

theorem tryUnlock_single_conditional_write_witness :
    (tryUnlock none freshSession 2).store
      = some { lockerID := some 0, lastWrite := some 2, value := some freshSession.Value } :=
  (tryUnlock_single_conditional_write none freshSession 2).2.1
    ((tryUnlock_single_conditional_write none freshSession 2).1.mpr (Or.inl rfl))

/-- C6 counterexample: a session that never successfully locked the
name does NOT always fail with `NotHolder`: when the lock record is
absent, the release condition (`record absent OR holder = session`)
holds and `Unlock` succeeds. -/
theorem unlock_absent_record_succeeds :
    (Unlock none freshSession 3).outcome = UnlockOutcome.ok
    ∧ freshSession.id ≠ 0
    ∧ UnlockOutcome.ok ≠ UnlockOutcome.notHolder := by
  decide

/-- C6 (amended): when the lock record exists and is held by a
different session id, `Unlock` fails with `NotHolder`; the failure is
terminal — the conditional update is attempted exactly once, is never
retried, and leaves the store unchanged.  (When the record is absent,
`Unlock` succeeds instead.) -/
theorem unlock_notHolder_of_other_holder (store : Option Record) (r : Record)
    (m : Mutex) (now : Int)
    (h1 : store = some r) (h2 : r.lockerID ≠ some m.id) :
    (Unlock store m now).outcome = UnlockOutcome.notHolder
    ∧ (Unlock store m now).attempts = 1
    ∧ (Unlock store m now).store = store := by
  subst h1
  have hc : ¬(unlockCondition (some r) m.id = true) := by
    simp only [unlockCondition, beq_iff_eq]
    exact h2
  unfold Unlock tryUnlock
  rw [if_neg hc]
  exact ⟨rfl, rfl, rfl⟩

theorem unlock_notHolder_of_other_holder_witness :
    heldRecord.lockerID ≠ some freshSession.id ∧
    (Unlock (some heldRecord) freshSession 9).outcome = UnlockOutcome.notHolder :=
  ⟨by decide,
   (unlock_notHolder_of_other_holder (some heldRecord) heldRecord freshSession 9 rfl (by decide)).1⟩

/-- C7 counterexample: the empty cached value is not a valid base-10
signed 64-bit integer literal, yet `GetValueInt64` does not fail with
`InvalidValue` — it returns `0`. -/
theorem getValueInt64_empty_not_invalid :
    GetValueInt64 emptyValueClient = GetIntResult.ok 0
    ∧ parseInt64 emptyValueClient.Value = none
    ∧ GetIntResult.ok 0 ≠ GetIntResult.invalidValue := by
  decide

/-- C7 (amended): `GetValueInt64` fails with `InvalidValue` exactly
when the cached value is nonempty and not a valid base-10 signed
64-bit integer literal; when it is such a literal, the decoded integer
is returned (and the empty cached value decodes to `0`). -/
theorem getValueInt64_invalid_iff (m : Mutex) :
    (GetValueInt64 m = GetIntResult.invalidValue ↔
      (m.Value ≠ "" ∧ parseInt64 m.Value = none))
    ∧ (∀ v : Int, parseInt64 m.Value = some v → GetValueInt64 m = GetIntResult.ok v) := by
  by_cases he : m.Value = ""
  · constructor
    · rw [GetValueInt64, if_pos he]
      exact iff_of_false (fun hx => GetIntResult.noConfusion hx) (fun hcl => hcl.1 he)
    · intro v hv
      rw [he] at hv
      have hnone : parseInt64 "" = none := by decide
      rw [hnone] at hv
      exact Option.noConfusion hv
  · constructor
    · rw [GetValueInt64, if_neg he]
      cases hp : parseInt64 m.Value with
      | none => exact iff_of_true rfl ⟨he, rfl⟩
      | some v =>
        exact iff_of_false (fun hx => GetIntResult.noConfusion hx)
          (fun hcl => Option.noConfusion hcl.2)
    · intro v hv
      rw [GetValueInt64, if_neg he, hv]

theorem getValueInt64_invalid_iff_witness :
    parseInt64 fortyTwoClient.Value = some 42 ∧
    GetValueInt64 fortyTwoClient = GetIntResult.ok 42 :=
  ⟨by decide, (getValueInt64_invalid_iff fortyTwoClient).2 42 (by decide)⟩

/-- C8: setting an in-range signed 64-bit integer and reading it back
returns the same integer, and setting a string and reading it back
returns the same string. -/
theorem value_roundtrip (m : Mutex) (v : Int) (s : String)
    (h1 : -9223372036854775808 ≤ v) (h2 : v ≤ 9223372036854775807) :
    GetValueInt64 (SetValueInt64 m v) = GetIntResult.ok v
    ∧ GetValueString (SetValueString m s) = s := by
  constructor
  · show (if formatInt v = "" then GetIntResult.ok 0
          else match parseInt64 (formatInt v) with
               | some w => GetIntResult.ok w
               | none => GetIntResult.invalidValue) = GetIntResult.ok v
    rw [if_neg (formatInt_ne_empty v), parseInt64_formatInt h1 h2]
  · rfl

theorem value_roundtrip_witness :
    -9223372036854775808 ≤ (-5 : Int) ∧ (-5 : Int) ≤ 9223372036854775807 ∧
    GetValueInt64 (SetValueInt64 freshSession (-5)) = GetIntResult.ok (-5) ∧
    GetValueString (SetValueString freshSession "hi") = "hi" :=
  ⟨by decide, by decide,
   (value_roundtrip freshSession (-5) "hi" (by decide) (by decide)).1,
   (value_roundtrip freshSession (-5) "hi" (by decide) (by decide)).2⟩

/-- C9: a first completed initialization assigns a nonzero session id,
and no subsequent client operation — repeated initialization, the
timeout builder, acquisition or release attempts, or the value
setters — ever changes it. -/
theorem sessionID_nonzero_stable (m m1 : Mutex) (draws : List Int)
    (h0 : m.initialized = false) (h : initialization m draws = some m1) :
    m1.id ≠ 0 ∧ ∀ ops : List ClientOp, (applyClientOps m1 ops).id = m1.id := by
  have h1 := initialization_ready h0 h
  exact ⟨h1.1, fun ops => applyClientOps_id h1.2 ops⟩

theorem sessionID_nonzero_stable_witness :
    uninitClient.initialized = false ∧ freshSession.id ≠ 0 ∧
    (applyClientOps freshSession [ClientOp.setStr "x"]).id = freshSession.id :=
  ⟨rfl,
   (sessionID_nonzero_stable uninitClient freshSession [7] rfl (by decide)).1,
   (sessionID_nonzero_stable uninitClient freshSession [7] rfl (by decide)).2 [ClientOp.setStr "x"]⟩

/-- C10: an empty cached value makes `GetValueInt64` return `0`
without failing, and the `InvalidValue` failure can only arise from a
nonempty cached value. -/
theorem getValueInt64_empty_ok :
    (∀ m : Mutex, m.Value = "" → GetValueInt64 m = GetIntResult.ok 0)
    ∧ (∀ m : Mutex, GetValueInt64 m = GetIntResult.invalidValue → m.Value ≠ "") := by
  constructor
  · intro m h
    rw [GetValueInt64, if_pos h]
  · intro m h he
    rw [GetValueInt64, if_pos he] at h
    exact GetIntResult.noConfusion h

theorem getValueInt64_empty_ok_witness :
    emptyValueClient.Value = "" ∧ GetValueInt64 emptyValueClient = GetIntResult.ok 0 :=
  ⟨rfl, getValueInt64_empty_ok.1 emptyValueClient rfl⟩

end DSync
